import Mathlib

/-!
Verification of the configuration resolution and merge engine of the
containerd fork (package `config`), together with the Windows
container-layer teardown helpers (package `sys`).

The repository ships the test file of the `config` package; the
implementation of `mergeConfig`, `resolveImports`, `LoadConfig` and
`Config.Decode` lives outside the provided sources, so those operations
are modelled from the specification (each such definition carries a doc
comment starting with `Modelled from the spec:`).  The `sys` package's
`cleanupWCOWLayers` / `ForceRemoveAll` are embedded directly from
`sys/filesys_windows.go`.
-/

namespace ContainerdConfig

/-- Generic document-tree value produced by the external TOML parser:
a recursive tagged union (null, boolean, number, string, sequence,
table).  Plugin sections are values of this type. -/
inductive Value where
  | null : Value
  | bool (b : Bool) : Value
  | num (n : Int) : Value
  | str (s : String) : Value
  | seq (xs : List Value) : Value
  | table (m : List (String × Value)) : Value

/-- Stream-processor record: `{path, returns, accepts : sequence of string}`. -/
structure StreamProcessor where
  accepts : List String
  returns : String
  path : String
deriving DecidableEq, Repr

/-- The root configuration entity, with the fields named in the data
model: `version` (0 means unspecified/legacy), `root`/`state`,
`oomScore`, `timeouts` (string-to-string map), `requiredPlugins` /
`disabledPlugins` (ordered sequences), `streamProcessors` (keyed map of
records), `plugins` (the plugin-section map, qualified key to generic
tree), and `imports` (resolved paths, informational).  Maps are
association lists with unique keys, looked up with `List.lookup`. -/
structure Config where
  version : Int
  root : String
  state : String
  oomScore : Int
  timeouts : List (String × String)
  requiredPlugins : List String
  disabledPlugins : List String
  streamProcessors : List (String × StreamProcessor)
  plugins : List (String × Value)
  imports : List String

/-- The zero-value `Config`: every scalar is its type's zero/empty value
and every sequence or map is empty. -/
def zeroConfig : Config :=
  { version := 0
    root := ""
    state := ""
    oomScore := 0
    timeouts := []
    requiredPlugins := []
    disabledPlugins := []
    streamProcessors := []
    plugins := []
    imports := [] }

/-- Modelled from the spec: scalar rule for integers — the donor value
replaces the base value only if the donor value is not the type's zero
value; otherwise the base is preserved. -/
def mergeInt (base donor : Int) : Int :=
  if donor = 0 then base else donor

/-- Modelled from the spec: scalar rule for strings — the donor value
replaces the base value only if the donor value is not the empty string;
otherwise the base is preserved. -/
def mergeString (base donor : String) : String :=
  if donor = "" then base else donor

/-- Modelled from the spec: keyed-map rule — the result key set is the
union of base and donor keys; a key present on only one side keeps that
side's value; a key present on both sides is replaced entirely by the
donor's value for that key.  Realised on association lists by dropping
every base entry whose key the donor also binds and appending the donor
entries. -/
def mergeAssoc {α : Type} (base donor : List (String × α)) : List (String × α) :=
  base.filter (fun p => (donor.lookup p.1).isNone) ++ donor

/-- Merge of two generic plugin trees bound to the same plugin id.
The repository's tests (`TestMergingTwoPluginConfigs`,
`TestMergingTwoPluginConfigsOverwrite`) pin this down: the two trees
merge by top-level key union, and on a conflict of the same nested key
the donor's entire value for that key replaces the base's (no merging
further below); a non-table donor tree replaces the base tree. -/
def mergePluginValue (base donor : Value) : Value :=
  match base, donor with
  | Value.table bm, Value.table dm => Value.table (mergeAssoc bm dm)
  | _, d => d

/-- Tree stored for one donor plugin entry after the merge: when the
base also binds the id, the two trees are combined with
`mergePluginValue`, otherwise the donor tree is taken as-is. -/
def pluginMergeAt (base : List (String × Value)) (k : String) (v : Value) : Value :=
  match base.lookup k with
  | some bv => mergePluginValue bv v
  | none => v

/-- Merge of the plugin-section maps: key union; a base-only id keeps
the base tree, a donor id is stored via `pluginMergeAt` (so a shared id
gets the one-level-deep combination of the two trees). -/
def mergePlugins (base donor : List (String × Value)) : List (String × Value) :=
  base.filter (fun p => (donor.lookup p.1).isNone) ++
    donor.map (fun p => (p.1, pluginMergeAt base p.1 p.2))

/-- Modelled from the spec: the Merge Engine `mergeConfig(base, donor)`.
Scalars follow the scalar rule, sequences are concatenated verbatim,
and keyed maps (timeouts, stream processors) follow the keyed-map rule.
For the plugin-section map the spec's own examples and the repository's
tests fix the behaviour: ids union, and two trees bound to the same
plugin id merge one level deep with the donor winning wholesale on a
conflicting nested key (`mergePlugins`).  The Go function mutates
`base` in place and can only fail on an internal raw-section decode;
the model is the pure merged value. -/
def mergeConfig (base donor : Config) : Config :=
  { version := mergeInt base.version donor.version
    root := mergeString base.root donor.root
    state := mergeString base.state donor.state
    oomScore := mergeInt base.oomScore donor.oomScore
    timeouts := mergeAssoc base.timeouts donor.timeouts
    requiredPlugins := base.requiredPlugins ++ donor.requiredPlugins
    disabledPlugins := base.disabledPlugins ++ donor.disabledPlugins
    streamProcessors := mergeAssoc base.streamProcessors donor.streamProcessors
    plugins := mergePlugins base.plugins donor.plugins
    imports := base.imports ++ donor.imports }

/-- Donor-wins choice between two optional map entries: the donor's
entry when present, otherwise the base's. -/
def donorWins {α : Type} (donor base : Option α) : Option α :=
  match donor with
  | some v => some v
  | none => base

theorem lookup_mergeAssoc {α : Type} (base donor : List (String × α)) (k : String) :
    (mergeAssoc base donor).lookup k = donorWins (donor.lookup k) (base.lookup k) := by
  induction base with
  | nil =>
    simp only [mergeAssoc, List.filter_nil, List.nil_append]
    cases h : donor.lookup k <;> simp [donorWins]
  | cons p t ih =>
    obtain ⟨k', v'⟩ := p
    simp only [mergeAssoc, List.filter_cons] at *
    cases hk' : donor.lookup k' with
    | none =>
      simp only [hk', Option.isNone_none, if_pos, List.cons_append, List.lookup_cons]
      by_cases hkk : k = k'
      · subst hkk
        simp [hk', List.lookup_cons, donorWins]
      · have hbeq : (k == k') = false := beq_false_of_ne hkk
        simp only [hbeq, cond_false]
        rw [ih]
    | some w =>
      simp only [hk', Option.isNone_some, Bool.false_eq_true, if_false]
      rw [ih]
      by_cases hkk : k = k'
      · subst hkk
        simp [hk', donorWins]
      · have hbeq : (k == k') = false := beq_false_of_ne hkk
        cases h : donor.lookup k <;> simp [List.lookup_cons, hbeq, donorWins]

theorem mergeAssoc_nil {α : Type} (base : List (String × α)) :
    mergeAssoc base [] = base := by
  simp only [mergeAssoc, List.append_nil]
  apply List.filter_eq_self.mpr
  intro a _
  rfl

theorem lookup_map_keyed {α β : Type} (f : String → α → β) (l : List (String × α)) (k : String) :
    (l.map (fun p => (p.1, f p.1 p.2))).lookup k = (l.lookup k).map (f k) := by
  induction l with
  | nil => rfl
  | cons p t ih =>
    obtain ⟨k', v'⟩ := p
    by_cases hkk : k = k'
    · subst hkk
      simp [List.lookup_cons]
    · have hbeq : (k == k') = false := beq_false_of_ne hkk
      simp [List.lookup_cons, hbeq, ih]

theorem mergePlugins_nil (base : List (String × Value)) : mergePlugins base [] = base := by
  unfold mergePlugins
  simp only [List.map_nil, List.append_nil]
  apply List.filter_eq_self.mpr
  intro a _
  rfl

theorem lookup_mergePlugins (base donor : List (String × Value)) (k : String) :
    (mergePlugins base donor).lookup k =
      donorWins ((donor.lookup k).map (pluginMergeAt base k)) (base.lookup k) := by
  have hfe : mergePlugins base donor =
      mergeAssoc base (donor.map (fun p => (p.1, pluginMergeAt base p.1 p.2))) := by
    unfold mergePlugins mergeAssoc
    congr 1
    apply List.filter_congr
    intro p _
    rw [lookup_map_keyed (pluginMergeAt base) donor p.1]
    cases donor.lookup p.1 <;> simp
  rw [hfe, lookup_mergeAssoc, lookup_map_keyed (pluginMergeAt base) donor k]

/-- Registration descriptor supplied by the external plugin registry:
`{type : string, id : string, target : decode destination}`.  The
`config` field models the caller-supplied decode target (a generic
mapping in the tests). -/
structure Registration where
  type : String
  id : String
  config : Value

/-- Modelled from the spec: `effectiveVersion` is `config.version` if
explicitly nonzero, else `1` (legacy default). -/
def effectiveVersion (c : Config) : Int :=
  if c.version ≠ 0 then c.version else 1

/-- Modelled from the spec: the plugin-section lookup key is
`registration.type + "." + registration.id` when `effectiveVersion >= 2`
and `type` is non-empty, and `registration.id` alone otherwise (the
pre-versioning schema had no type-qualified namespace). -/
def pluginKey (c : Config) (r : Registration) : String :=
  if 2 ≤ effectiveVersion c ∧ r.type ≠ "" then r.type ++ "." ++ r.id else r.id

/-- Modelled from the spec: `decode(config, registration)` derives the
lookup key, looks it up in `config.pluginSections`; absence is not an
error and the target is untouched — the result is `(false, nil)`.  When
present, the generic tree is decoded into the target (here: a generic
mapping, so any table decodes; a shape mismatch is a `DecodeError`
naming the key).  The result triple is (found, error, target after the
call); the config is never mutated (the model reads it purely). -/
def Config.decode (c : Config) (r : Registration) : Bool × Option String × Value :=
  match c.plugins.lookup (pluginKey c r) with
  | none => (false, none, r.config)
  | some v =>
    match v with
    | Value.table m => (true, none, Value.table m)
    | _ => (true, some ("DecodeError: " ++ pluginKey c r), r.config)

/-- Base document of the plugin-merge tests: customizes only
`plugins."io.containerd.grpc.v1.cri".cni.bin_dir`. -/
def cfgCniBin : Config :=
  { zeroConfig with
    plugins := [("io.containerd.grpc.v1.cri",
      Value.table [("cni",
        Value.table [("bin_dir", Value.str "/cm/local/apps/kubernetes/current/bin/cni")])])] }

/-- Donor document of the plugin-merge tests: customizes only
`plugins."io.containerd.grpc.v1.cri".cni.conf_dir`. -/
def cfgCniConf : Config :=
  { zeroConfig with
    plugins := [("io.containerd.grpc.v1.cri",
      Value.table [("cni", Value.table [("conf_dir", Value.str "/tmp")])])] }

/-- Donor document of the disjoint-plugin-merge test: customizes only
`plugins."io.containerd.grpc.v1.cri".registry.config_path`. -/
def cfgRegistry : Config :=
  { zeroConfig with
    plugins := [("io.containerd.grpc.v1.cri",
      Value.table [("registry",
        Value.table [("config_path", Value.str "/cm/local/apps/containerd/var/etc/certs.d")])])] }

/-- C1 counterexample: per `TestMergingTwoPluginConfigs`, merging two
documents that configure disjoint subtables (`cni` vs `registry`) of
the same plugin id `"io.containerd.grpc.v1.cri"` keeps both subtables,
so the merged tree for that id is not the donor's entire nested tree —
the claimed whole-tree overwrite at the plugin-id level does not hold. -/
theorem plugin_id_merge_not_whole_tree_overwrite :
    (mergeConfig cfgCniBin cfgRegistry).plugins.lookup "io.containerd.grpc.v1.cri" ≠
      cfgRegistry.plugins.lookup "io.containerd.grpc.v1.cri" := by
  have h1 : (mergeConfig cfgCniBin cfgRegistry).plugins.lookup "io.containerd.grpc.v1.cri" =
      some (Value.table
        [("cni",
          Value.table [("bin_dir", Value.str "/cm/local/apps/kubernetes/current/bin/cni")]),
         ("registry",
          Value.table [("config_path",
            Value.str "/cm/local/apps/containerd/var/etc/certs.d")])]) := rfl
  have h2 : cfgRegistry.plugins.lookup "io.containerd.grpc.v1.cri" =
      some (Value.table
        [("registry",
          Value.table [("config_path",
            Value.str "/cm/local/apps/containerd/var/etc/certs.d")])]) := rfl
  rw [h1, h2]
  intro h
  injection h with h'
  injection h' with h''
  exact absurd (congrArg List.length h'') (by decide)

/-- C1 amended: plugin-section maps merge by plugin-id union; a shared
plugin id maps to the one-level-deep combination of the two trees —
their top-level keys union, and a conflict on the same nested key
resolves to the donor's entire value for that key, with no merging
further below.  The concrete conjuncts replay
`TestMergingTwoPluginConfigs` (disjoint subtables `cni` and `registry`
of the same id are both kept) and `TestMergingTwoPluginConfigsOverwrite`
(same nested key `cni`: the donor's subtable replaces the base's,
`bin_dir` is discarded). -/
theorem plugin_section_merge_one_level (base donor : Config) (id : String) :
    ((mergeConfig base donor).plugins.lookup id =
      donorWins ((donor.plugins.lookup id).map (pluginMergeAt base.plugins id))
        (base.plugins.lookup id)) ∧
    (∀ bm dm, base.plugins.lookup id = some (Value.table bm) →
      donor.plugins.lookup id = some (Value.table dm) →
      (mergeConfig base donor).plugins.lookup id = some (Value.table (mergeAssoc bm dm))) ∧
    (donor.plugins.lookup id = none →
      (mergeConfig base donor).plugins.lookup id = base.plugins.lookup id) ∧
    (mergeConfig cfgCniBin cfgRegistry).plugins.lookup "io.containerd.grpc.v1.cri" =
      some (Value.table
        [("cni",
          Value.table [("bin_dir", Value.str "/cm/local/apps/kubernetes/current/bin/cni")]),
         ("registry",
          Value.table [("config_path",
            Value.str "/cm/local/apps/containerd/var/etc/certs.d")])]) ∧
    (mergeConfig cfgCniBin cfgCniConf).plugins.lookup "io.containerd.grpc.v1.cri" =
      some (Value.table [("cni", Value.table [("conf_dir", Value.str "/tmp")])]) := by
  have hmain : (mergeConfig base donor).plugins.lookup id =
      donorWins ((donor.plugins.lookup id).map (pluginMergeAt base.plugins id))
        (base.plugins.lookup id) := by
    simpa only [mergeConfig] using lookup_mergePlugins base.plugins donor.plugins id
  refine ⟨hmain, ?_, ?_, rfl, rfl⟩
  · intro bm dm hb hd
    rw [hmain, hd]
    simp [donorWins, pluginMergeAt, hb, mergePluginValue]
  · intro hd
    rw [hmain, hd]
    simp [donorWins]

theorem plugin_section_merge_one_level_witness :
    (mergeConfig cfgCniBin cfgCniConf).plugins.lookup "io.containerd.grpc.v1.cri" =
      some (Value.table (mergeAssoc
        [("cni",
          Value.table [("bin_dir", Value.str "/cm/local/apps/kubernetes/current/bin/cni")])]
        [("cni", Value.table [("conf_dir", Value.str "/tmp")])])) :=
  (plugin_section_merge_one_level cfgCniBin cfgCniConf "io.containerd.grpc.v1.cri").2.1
    [("cni", Value.table [("bin_dir", Value.str "/cm/local/apps/kubernetes/current/bin/cni")])]
    [("cni", Value.table [("conf_dir", Value.str "/tmp")])] rfl rfl

/-- C2: scalar fields (integers and strings: version, root, state,
oomScore) take the donor's value exactly when it is not the type's
zero/empty value and keep the base's value otherwise; in particular
base `root="old"` with donor `root=""` yields `"old"`, and donor
`root="new"` yields `"new"`. -/
theorem scalar_merge_rule (base donor : Config) :
    (mergeConfig base donor).version =
      (if donor.version = 0 then base.version else donor.version) ∧
    (mergeConfig base donor).root = (if donor.root = "" then base.root else donor.root) ∧
    (mergeConfig base donor).state = (if donor.state = "" then base.state else donor.state) ∧
    (mergeConfig base donor).oomScore =
      (if donor.oomScore = 0 then base.oomScore else donor.oomScore) ∧
    (mergeConfig { zeroConfig with root := "old" } { zeroConfig with root := "" }).root =
      "old" ∧
    (mergeConfig { zeroConfig with root := "old" } { zeroConfig with root := "new" }).root =
      "new" :=
  ⟨rfl, rfl, rfl, rfl, by decide, by decide⟩

/-- C3: sequence-valued fields (requiredPlugins, disabledPlugins) merge
to the base's sequence followed by the donor's sequence, concatenated
verbatim with no deduplication and order preserved within each operand;
the last conjunct replays `TestMergeConfigs`'s example (base
`["old_plugin"]`, donor `["new_plugin1","new_plugin2"]`). -/
theorem sequence_merge_rule (base donor : Config) :
    (mergeConfig base donor).requiredPlugins =
      base.requiredPlugins ++ donor.requiredPlugins ∧
    (mergeConfig base donor).disabledPlugins =
      base.disabledPlugins ++ donor.disabledPlugins ∧
    (mergeConfig { zeroConfig with requiredPlugins := ["old_plugin"] }
        { zeroConfig with requiredPlugins := ["new_plugin1", "new_plugin2"] }).requiredPlugins =
      ["old_plugin", "new_plugin1", "new_plugin2"] :=
  ⟨rfl, rfl, rfl⟩

/-- Base operand of `TestMergeConfigs`'s stream-processor map:
`{"1": {Path:"2", Returns:"4"}, "2": {Path:"5"}}`. -/
def spBase : Config :=
  { zeroConfig with
    streamProcessors :=
      [("1", { accepts := [], returns := "4", path := "2" }),
       ("2", { accepts := [], returns := "", path := "5" })] }

/-- Donor operand of `TestMergeConfigs`'s stream-processor map:
`{"1": {Path:"3"}}`. -/
def spDonor : Config :=
  { zeroConfig with
    streamProcessors := [("1", { accepts := [], returns := "", path := "3" })] }

/-- C4: merging a typed keyed map (streamProcessors) unions the key
sets; a key on one side only keeps that side's record, and a key on
both sides maps to the donor's record in its entirety (no field-level
merge — fields set only in the base's record are lost).  The concrete
conjuncts replay `TestMergeConfigs`: the donor's `{"1":{path:"3"}}`
fully replaces the base's `{"1":{path:"2",returns:"4"}}` (returns "4"
is lost) while `"2"` keeps the base's record. -/
theorem keyed_map_merge_rule (base donor : Config) (k : String) :
    ((mergeConfig base donor).streamProcessors.lookup k =
      donorWins (donor.streamProcessors.lookup k) (base.streamProcessors.lookup k)) ∧
    (((mergeConfig base donor).streamProcessors.lookup k).isSome ↔
      ((base.streamProcessors.lookup k).isSome ∨ (donor.streamProcessors.lookup k).isSome)) ∧
    (mergeConfig spBase spDonor).streamProcessors.lookup "1" =
      some { accepts := [], returns := "", path := "3" } ∧
    (mergeConfig spBase spDonor).streamProcessors.lookup "2" =
      some { accepts := [], returns := "", path := "5" } := by
  have hmain : (mergeConfig base donor).streamProcessors.lookup k =
      donorWins (donor.streamProcessors.lookup k) (base.streamProcessors.lookup k) := by
    simpa only [mergeConfig] using
      lookup_mergeAssoc base.streamProcessors donor.streamProcessors k
  refine ⟨hmain, ?_, by decide, by decide⟩
  rw [hmain]
  cases donor.streamProcessors.lookup k <;> cases base.streamProcessors.lookup k <;>
    simp [donorWins]

/-- C5: merging any config with the zero-value config as donor leaves
the base unchanged field-for-field (scalars, sequences, maps and plugin
sections). -/
theorem merge_zero_donor_identity (a : Config) : mergeConfig a zeroConfig = a := by
  cases a
  simp [mergeConfig, mergeInt, mergeString, mergeAssoc_nil, mergePlugins_nil, zeroConfig]

/-- C8: when the derived key is absent from the plugin-section map,
`decode` returns `(false, nil)` — absence is not an error — and the
registration's target comes back untouched; `decode` reads the config
purely and never mutates it. -/
theorem decode_missing_section (c : Config) (r : Registration)
    (h : c.plugins.lookup (pluginKey c r) = none) :
    c.decode r = (false, none, r.config) := by
  simp [Config.decode, h]

theorem decode_missing_section_witness :
    (zeroConfig.plugins.lookup (pluginKey zeroConfig ⟨"T", "ID", Value.null⟩) = none) ∧
    zeroConfig.decode ⟨"T", "ID", Value.null⟩ = (false, none, Value.null) :=
  ⟨rfl, decode_missing_section zeroConfig ⟨"T", "ID", Value.null⟩ rfl⟩

/-- Version-2 config of `TestDecodePlugin`: one section keyed
`"io.containerd.runtime.v1.linux"` containing `shim_debug = true`. -/
def cfgV2Linux : Config :=
  { zeroConfig with
    version := 2
    plugins := [("io.containerd.runtime.v1.linux",
      Value.table [("shim_debug", Value.bool true)])] }

/-- Non-versioned config of `TestDecodePluginInV1Config`: one section
keyed `"linux"` containing `shim_debug = true`, no version field. -/
def cfgV1Linux : Config :=
  { zeroConfig with
    plugins := [("linux", Value.table [("shim_debug", Value.bool true)])] }

/-- C9: the lookup key derivation — `effectiveVersion` is the config's
version when nonzero and 1 otherwise; the key is `type ++ "." ++ id`
when `effectiveVersion >= 2` and the type is non-empty and bare `id`
when `effectiveVersion < 2`.  The concrete conjuncts replay
`TestDecodePlugin` (version-2 section `"io.containerd.runtime.v1.linux"`
found via type `"io.containerd.runtime.v1"` and id `"linux"`) and
`TestDecodePluginInV1Config` (no version, section `"linux"` found via
empty type and id `"linux"`). -/
theorem pluginKey_version_scheme (c : Config) (r : Registration) :
    (c.version ≠ 0 → effectiveVersion c = c.version) ∧
    (c.version = 0 → effectiveVersion c = 1) ∧
    (2 ≤ effectiveVersion c → r.type ≠ "" → pluginKey c r = r.type ++ "." ++ r.id) ∧
    (effectiveVersion c < 2 → pluginKey c r = r.id) ∧
    (cfgV2Linux.decode ⟨"io.containerd.runtime.v1", "linux", Value.table []⟩ =
      (true, none, Value.table [("shim_debug", Value.bool true)])) ∧
    (cfgV1Linux.decode ⟨"", "linux", Value.table []⟩ =
      (true, none, Value.table [("shim_debug", Value.bool true)])) := by
  refine ⟨?_, ?_, ?_, ?_, rfl, rfl⟩
  · intro h
    simp [effectiveVersion, h]
  · intro h
    simp [effectiveVersion, h]
  · intro h1 h2
    simp [pluginKey, h1, h2]
  · intro h
    have : ¬ (2 ≤ effectiveVersion c ∧ r.type ≠ "") := by
      rintro ⟨h2, -⟩
      omega
    simp [pluginKey, this]

theorem pluginKey_version_scheme_witness :
    effectiveVersion cfgV2Linux = 2 ∧
    effectiveVersion cfgV1Linux = 1 ∧
    pluginKey cfgV2Linux ⟨"io.containerd.runtime.v1", "linux", Value.null⟩ =
      "io.containerd.runtime.v1.linux" ∧
    pluginKey cfgV1Linux ⟨"", "linux", Value.null⟩ = "linux" :=
  ⟨(pluginKey_version_scheme cfgV2Linux ⟨"io.containerd.runtime.v1", "linux", Value.null⟩).1
      (by decide),
   (pluginKey_version_scheme cfgV1Linux ⟨"", "linux", Value.null⟩).2.1 rfl,
   (pluginKey_version_scheme cfgV2Linux ⟨"io.containerd.runtime.v1", "linux", Value.null⟩).2.2.1
      (by decide) (by decide),
   (pluginKey_version_scheme cfgV1Linux ⟨"", "linux", Value.null⟩).2.2.2.1 (by decide)⟩

theorem filter_length_mono {α : Type} (l : List α) (p q : α → Bool)
    (h : ∀ a, q a = true → p a = true) :
    (l.filter q).length ≤ (l.filter p).length := by
  induction l with
  | nil => simp
  | cons b t ih =>
    simp only [List.filter_cons]
    cases hq : q b
    · cases hp : p b
      · simpa using ih
      · simp only [List.length_cons]
        exact Nat.le_succ_of_le ih
    · rw [h b hq]
      simpa using ih

theorem filter_length_strict {α : Type} (l : List α) (p q : α → Bool) (a : α)
    (h : ∀ x, q x = true → p x = true) (ha : a ∈ l) (hqa : q a = false) (hpa : p a = true) :
    (l.filter q).length < (l.filter p).length := by
  induction l with
  | nil => cases ha
  | cons b t ih =>
    simp only [List.filter_cons]
    rcases List.mem_cons.mp ha with rfl | hmem
    · rw [hqa, hpa]
      simp only [List.length_cons, if_true, if_false, Bool.false_eq_true]
      exact Nat.lt_succ_of_le (filter_length_mono t p q h)
    · cases hq : q b
      · cases hp : p b
        · simpa using ih hmem
        · simp only [List.length_cons]
          exact Nat.lt_succ_of_lt (ih hmem)
      · rw [h b hq]
        simp only [List.length_cons]
        exact Nat.succ_lt_succ (ih hmem)

/-- Number of document paths of the import graph `g` that the traversal
has not yet visited; the well-founded measure of `resolveClosure`. -/
def unvisitedKeyCount (g : List (String × List String)) (visited : List String) : Nat :=
  ((g.map Prod.fst).filter (fun k => decide (k ∉ visited))).length

theorem unvisitedKeyCount_append_le (g : List (String × List String))
    (visited : List String) (p : String) :
    unvisitedKeyCount g (visited ++ [p]) ≤ unvisitedKeyCount g visited := by
  apply filter_length_mono
  intro a ha
  simp only [decide_eq_true_eq] at ha ⊢
  intro hmem
  exact ha (List.mem_append_left _ hmem)

theorem unvisitedKeyCount_append_lt (g : List (String × List String))
    (visited : List String) (p : String)
    (hin : p ∈ g.map Prod.fst) (hnv : p ∉ visited) :
    unvisitedKeyCount g (visited ++ [p]) < unvisitedKeyCount g visited := by
  apply filter_length_strict _ _ _ p _ hin
  · simp
  · simpa using hnv
  · intro a ha
    simp only [decide_eq_true_eq] at ha ⊢
    intro hmem
    exact ha (List.mem_append_left _ hmem)

theorem mem_keys_of_lookup_some {α : Type} {l : List (String × α)} {k : String} {v : α}
    (h : l.lookup k = some v) : k ∈ l.map Prod.fst := by
  induction l with
  | nil => simp [List.lookup] at h
  | cons p t ih =>
    obtain ⟨k', v'⟩ := p
    by_cases hkk : k = k'
    · subst hkk
      simp
    · have hbeq : (k == k') = false := beq_false_of_ne hkk
      rw [List.lookup_cons, hbeq] at h
      simp only [cond_false] at h
      exact List.mem_cons_of_mem _ (ih h)

theorem lex_of_le_of_lt {a a' b b' : Nat} (h1 : a' ≤ a) (h2 : b' < b) :
    Prod.Lex (· < ·) (· < ·) (a', b') (a, b) := by
  rcases Nat.lt_or_ge a' a with h | h
  · exact Prod.Lex.left _ _ h
  · have heq : a' = a := Nat.le_antisymm h1 h
    subst heq
    exact Prod.Lex.right _ h2

/-- Modelled from the spec: the recursive import traversal of the
Import Resolver over already pattern-resolved paths.  The import graph
`g` associates each parseable document path with its resolved import
list (a path absent from `g` does not parse, so it contributes no
further imports).  `visited` is the single visited set shared across
the whole resolution, identical to the output sequence in discovery
order; `pending` is the depth-first worklist, a newly visited path's
own imports being prepended.  A path already in the visited set is
never re-parsed. -/
def resolveClosure (g : List (String × List String))
    (visited pending : List String) : List String :=
  match pending with
  | [] => visited
  | p :: rest =>
    if hv : p ∈ visited then resolveClosure g visited rest
    else
      match hl : g.lookup p with
      | none => resolveClosure g (visited ++ [p]) rest
      | some imps => resolveClosure g (visited ++ [p]) (imps ++ rest)
termination_by (unvisitedKeyCount g visited, pending.length)
decreasing_by
  · exact lex_of_le_of_lt (Nat.le_refl _) (Nat.lt_succ_self _)
  · exact lex_of_le_of_lt (unvisitedKeyCount_append_le g visited p) (Nat.lt_succ_self _)
  · exact Prod.Lex.left _ _
      (unvisitedKeyCount_append_lt g visited p (mem_keys_of_lookup_some hl) hv)

theorem resolveClosure_nodup (g : List (String × List String)) (visited pending : List String)
    (h : visited.Nodup) : (resolveClosure g visited pending).Nodup := by
  induction visited, pending using resolveClosure.induct g with
  | case1 visited =>
    simpa [resolveClosure] using h
  | case2 visited p rest hv ih =>
    have heq : resolveClosure g visited (p :: rest) = resolveClosure g visited rest := by
      simp [resolveClosure, hv]
    rw [heq]
    exact ih h
  | case3 visited p rest hv hl ih =>
    have heq : resolveClosure g visited (p :: rest) =
        resolveClosure g (visited ++ [p]) rest := by
      simp only [resolveClosure, dif_neg hv]
      split <;> simp_all
    rw [heq]
    exact ih (by simp [List.nodup_append, h, hv])
  | case4 visited p rest hv imps hl ih =>
    have heq : resolveClosure g visited (p :: rest) =
        resolveClosure g (visited ++ [p]) (imps ++ rest) := by
      simp only [resolveClosure, dif_neg hv]
      split <;> simp_all
    rw [heq]
    exact ih (by simp [List.nodup_append, h, hv])

theorem resolveClosure_extends (g : List (String × List String)) (visited pending : List String) :
    visited ⊆ resolveClosure g visited pending ∧ pending ⊆ resolveClosure g visited pending := by
  induction visited, pending using resolveClosure.induct g with
  | case1 visited =>
    simp [resolveClosure, List.Subset.refl]
  | case2 visited p rest hv ih =>
    have heq : resolveClosure g visited (p :: rest) = resolveClosure g visited rest := by
      simp [resolveClosure, hv]
    rw [heq]
    refine ⟨ih.1, ?_⟩
    intro x hx
    rcases List.mem_cons.mp hx with rfl | hx'
    · exact ih.1 hv
    · exact ih.2 hx'
  | case3 visited p rest hv hl ih =>
    have heq : resolveClosure g visited (p :: rest) =
        resolveClosure g (visited ++ [p]) rest := by
      simp only [resolveClosure, dif_neg hv]
      split <;> simp_all
    rw [heq]
    refine ⟨?_, ?_⟩
    · intro x hx
      exact ih.1 (List.mem_append_left _ hx)
    · intro x hx
      rcases List.mem_cons.mp hx with rfl | hx'
      · exact ih.1 (List.mem_append_right _ (List.mem_singleton_self x))
      · exact ih.2 hx'
  | case4 visited p rest hv imps hl ih =>
    have heq : resolveClosure g visited (p :: rest) =
        resolveClosure g (visited ++ [p]) (imps ++ rest) := by
      simp only [resolveClosure, dif_neg hv]
      split <;> simp_all
    rw [heq]
    refine ⟨?_, ?_⟩
    · intro x hx
      exact ih.1 (List.mem_append_left _ hx)
    · intro x hx
      rcases List.mem_cons.mp hx with rfl | hx'
      · exact ih.1 (List.mem_append_right _ (List.mem_singleton_self x))
      · exact ih.2 (List.mem_append_right _ hx')

/-- Mutual-cycle import graph of the claim's concrete example, mirroring
`TestLoadConfigWithCircularImports`: document `A` declares the import
list `[B]` and document `B` declares `[A, B]` (a mutual cycle plus a
self-import). -/
def cyclicGraph : List (String × List String) := [("A", ["B"]), ("B", ["A", "B"])]

/-- C6: the import traversal is a total function (its Lean embedding
is defined by well-founded recursion on the number of unvisited graph
keys, so it terminates on every graph, cyclic ones included, because a
path already in the visited set is never re-parsed); starting from a
duplicate-free visited set the output is duplicate-free, every
already-visited path and every pending path — in particular the path
that closed a cycle — remains present in the output, and on the mutual
cycle where `A` imports `[B]` and `B` imports `[A, B]` the resolution
starting from `A`'s imports yields exactly the set `{A, B}` (as the
list `["B", "A"]`). -/
theorem import_closure_cycle_safe (g : List (String × List String))
    (visited pending : List String) (h : visited.Nodup) :
    (resolveClosure g visited pending).Nodup ∧
    visited ⊆ resolveClosure g visited pending ∧
    pending ⊆ resolveClosure g visited pending ∧
    resolveClosure cyclicGraph [] ["B"] = ["B", "A"] := by
  refine ⟨resolveClosure_nodup g visited pending h, (resolveClosure_extends g visited pending).1,
    (resolveClosure_extends g visited pending).2, ?_⟩
  have h1 : resolveClosure cyclicGraph [] ["B"] = resolveClosure cyclicGraph ["B"] ["A", "B"] := by
    simp [resolveClosure, cyclicGraph, List.lookup]
  have h2 : resolveClosure cyclicGraph ["B"] ["A", "B"] =
      resolveClosure cyclicGraph ["B", "A"] ["B", "B"] := by
    simp [resolveClosure, cyclicGraph, List.lookup]
  have h3 : resolveClosure cyclicGraph ["B", "A"] ["B", "B"] =
      resolveClosure cyclicGraph ["B", "A"] ["B"] := by
    simp [resolveClosure]
  have h4 : resolveClosure cyclicGraph ["B", "A"] ["B"] =
      resolveClosure cyclicGraph ["B", "A"] [] := by
    simp [resolveClosure]
  have h5 : resolveClosure cyclicGraph ["B", "A"] [] = ["B", "A"] := by
    simp [resolveClosure]
  rw [h1, h2, h3, h4, h5]

theorem import_closure_cycle_safe_witness :
    (resolveClosure cyclicGraph [] ["B"]).Nodup ∧
    resolveClosure cyclicGraph [] ["B"] = ["B", "A"] :=
  ⟨(import_closure_cycle_safe cyclicGraph [] ["B"] List.nodup_nil).1,
   (import_closure_cycle_safe cyclicGraph [] ["B"] List.nodup_nil).2.2.2⟩

/-- Splitting of a character list at `/` separators; `cur` holds the
current segment reversed. -/
def splitSegsAux : List Char → List Char → List (List Char)
  | [], cur => [cur.reverse]
  | c :: cs, cur =>
    if c = '/' then cur.reverse :: splitSegsAux cs [] else splitSegsAux cs (c :: cur)

/-- Segments of a path string between `/` separators. -/
def pathSegs (s : String) : List String :=
  (splitSegsAux s.toList []).map (fun l => String.mk l)

/-- Whether a path is absolute, i.e. starts with the separator (Go
`filepath.IsAbs` on the Unix paths the tests use). -/
def isAbsPath (s : String) : Bool :=
  match s.toList with
  | '/' :: _ => true
  | _ => false

/-- Modelled from the spec: the directory of the document that declared
an import — the path without its final component (Go `filepath.Dir` on
the shapes of path the tests use). -/
def dirOf (s : String) : String :=
  let segs := pathSegs s
  if segs.length ≤ 1 then "."
  else if isAbsPath s ∧ segs.length = 2 then "/"
  else String.intercalate "/" segs.dropLast

/-- Path cleaning: collapses repeated separators and drops `.`
components, keeping a leading separator (the portion of Go
`filepath.Clean` the import resolver's test exercises). -/
def cleanPath (s : String) : String :=
  let segs := (pathSegs s).filter (fun seg => seg != "." && seg != "")
  (if isAbsPath s then "/" else "") ++ String.intercalate "/" segs

/-- Joining of a relative import pattern onto the declaring document's
directory followed by cleaning, as Go `filepath.Join`. -/
def joinPath (dir rel : String) : String := cleanPath (dir ++ "/" ++ rel)

/-- Whether a pattern contains wildcard syntax (the `*` and `?`
metacharacters of Go `filepath.Match`). -/
def hasWildcard (s : String) : Bool :=
  s.toList.any (fun c => c == '*' || c == '?')

/-- Suffixes of a character list reachable by consuming zero or more
leading non-separator characters: the runs a `*` wildcard may absorb. -/
def starSuffixes : List Char → List (List Char)
  | [] => [[]]
  | c :: cs => (c :: cs) :: (if c = '/' then [] else starSuffixes cs)

/-- Wildcard pattern matching over characters: `*` matches any run of
non-separator characters, `?` any single non-separator character, and
every other character matches itself. -/
def globMatchChars : List Char → List Char → Bool
  | [], s => s.isEmpty
  | '*' :: ps, s => (starSuffixes s).any (fun t => globMatchChars ps t)
  | '?' :: ps, c :: cs => c != '/' && globMatchChars ps cs
  | '?' :: _, [] => false
  | a :: ps, c :: cs => a == c && globMatchChars ps cs
  | _ :: _, [] => false

/-- Wildcard pattern matching on path strings. -/
def globMatch (pat s : String) : Bool := globMatchChars pat.toList s.toList

/-- Lexicographic order on path strings, via their character lists (for
the ASCII paths of the tests this is exactly Go's byte-wise string
order used by `sort.Strings` inside `filepath.Glob`). -/
def pathLe (a b : String) : Prop := a.toList ≤ b.toList

instance : DecidableRel pathLe := fun a b => by unfold pathLe; infer_instance

instance : IsTrans String pathLe := ⟨fun _ _ _ => le_trans⟩

instance : IsTotal String pathLe := ⟨fun _ _ => le_total _ _⟩

/-- Modelled from the spec: resolution of one raw import pattern
declared by the document at `docPath` against the abstract filesystem
`fs` (the list of existing file paths).  An absolute pattern is used
as-is; a relative one is joined and path-cleaned against the declaring
document's directory.  A pattern containing wildcard syntax is expanded
by matching the filesystem, the matches sorted lexicographically before
insertion; a non-wildcard pattern is kept whether or not it exists. -/
def resolvePattern (fs : List String) (docPath : String) (pat : String) : List String :=
  let full := if isAbsPath pat then pat else joinPath (dirOf docPath) pat
  if hasWildcard full then
    List.insertionSort pathLe (fs.filter (fun f => globMatch full f))
  else [full]

/-- Modelled from the spec: `resolve(declaringDocumentPath,
rawImportPatterns)` — every pattern resolved relative to the directory
of the declaring document, contributions concatenated in left-to-right
pattern order. -/
def resolveImports (fs : List String) (docPath : String) (patterns : List String) :
    List String :=
  (patterns.map (resolvePattern fs docPath)).flatten

/-- C7: each import pattern is resolved relative to the directory of
the declaring document (the result depends on the declaring path only
through its directory, not on any working directory); patterns
contribute in left-to-right order; a relative non-wildcard pattern
resolves to its cleaned join with the declaring directory; the
expansion of any single pattern is lexicographically sorted, and a
wildcard pattern yields exactly the filesystem matches.  The last
conjunct replays `TestResolveImports`: the filesystem lists
`config_2.toml` before `config_1.toml`, yet the glob resolves them in
lexicographic order, followed by the cleaned `./test.toml` and the
directory-relative `current.toml`. -/
theorem import_pattern_resolution (fs : List String) (doc1 doc2 pat : String)
    (patterns : List String) :
    (resolveImports fs doc1 (pat :: patterns) =
      resolvePattern fs doc1 pat ++ resolveImports fs doc1 patterns) ∧
    (dirOf doc1 = dirOf doc2 →
      resolveImports fs doc1 patterns = resolveImports fs doc2 patterns) ∧
    (isAbsPath pat = false → hasWildcard (joinPath (dirOf doc1) pat) = false →
      resolvePattern fs doc1 pat = [joinPath (dirOf doc1) pat]) ∧
    List.Sorted pathLe (resolvePattern fs doc1 pat) ∧
    (isAbsPath pat = true → hasWildcard pat = true →
      List.Perm (resolvePattern fs doc1 pat) (fs.filter (fun f => globMatch pat f))) ∧
    resolveImports ["/tmp/config_2.toml", "/tmp/config_1.toml", "/tmp/test.toml"]
      "/tmp/root.toml" ["/tmp/config_*.toml", "./test.toml", "current.toml"] =
      ["/tmp/config_1.toml", "/tmp/config_2.toml", "/tmp/test.toml", "/tmp/current.toml"] := by
  refine ⟨by simp [resolveImports], ?_, ?_, ?_, ?_, by decide⟩
  · intro h
    have hfun : resolvePattern fs doc1 = resolvePattern fs doc2 := by
      funext q
      simp [resolvePattern, h]
    rw [resolveImports, resolveImports, hfun]
  · intro h1 h2
    simp [resolvePattern, h1, h2]
  · unfold resolvePattern
    by_cases hw : hasWildcard (if isAbsPath pat then pat else joinPath (dirOf doc1) pat)
    · simp only [hw, if_true]
      exact List.sorted_insertionSort _ _
    · simp only [hw, Bool.false_eq_true, if_false]
      exact List.sorted_singleton _
  · intro h1 h2
    simp only [resolvePattern, h1, if_true, h2]
    exact List.perm_insertionSort _ _

theorem import_pattern_resolution_witness :
    resolvePattern [] "/tmp/root.toml" "current.toml" = ["/tmp/current.toml"] ∧
    List.Perm
      (resolvePattern ["/tmp/config_2.toml", "/tmp/config_1.toml", "/tmp/test.toml"]
        "/tmp/root.toml" "/tmp/config_*.toml")
      (["/tmp/config_2.toml", "/tmp/config_1.toml", "/tmp/test.toml"].filter
        (fun f => globMatch "/tmp/config_*.toml" f)) ∧
    resolveImports [] "/tmp/root.toml" ["a.toml"] =
      resolveImports [] "/tmp/other.toml" ["a.toml"] :=
  ⟨(import_pattern_resolution [] "/tmp/root.toml" "/tmp/root.toml" "current.toml" []).2.2.1
      (by decide) (by decide),
   (import_pattern_resolution ["/tmp/config_2.toml", "/tmp/config_1.toml", "/tmp/test.toml"]
      "/tmp/root.toml" "/tmp/root.toml" "/tmp/config_*.toml" []).2.2.2.2.1
      (by decide) (by decide),
   (import_pattern_resolution [] "/tmp/root.toml" "/tmp/other.toml" "x" ["a.toml"]).2.1
      (by decide)⟩

end ContainerdConfig

namespace ContainerdSys

/-- Value of one decimal digit character, when it is one. -/
def digitVal (c : Char) : Option Nat :=
  if c.isDigit then some (c.toNat - '0'.toNat) else none

/-- Accumulation of decimal digits; fails on a non-digit or on an empty
digit run. -/
def parseDigits (cs : List Char) : Option Nat :=
  match cs with
  | [] => none
  | _ =>
    cs.foldl
      (fun acc c =>
        match acc, digitVal c with
        | some n, some d => some (n * 10 + d)
        | _, _ => none)
      (some 0)

/-- Embedding of Go `strconv.Atoi` on the directory names the layer
cleanup walks: an optional sign followed by a non-empty digit run. -/
def atoi (s : String) : Option Int :=
  match s.toList with
  | '-' :: cs => (parseDigits cs).map (fun n => -(n : Int))
  | '+' :: cs => (parseDigits cs).map (fun n => (n : Int))
  | cs => (parseDigits cs).map (fun n => (n : Int))

/-- Whether a layer directory name carries the `rm-` marker, as the
`strings.HasPrefix(name, "rm-")` test of `cleanupWCOWLayers`. -/
def startsWithRm (name : String) : Bool :=
  match name.toList with
  | 'r' :: 'm' :: '-' :: _ => true
  | _ => false

/-- The name with the three `rm-` marker characters removed, as
`strings.TrimPrefix(name, "rm-")` on a name that carries the marker. -/
def rmRest (name : String) : String := String.mk (name.toList.drop 3)

/-- Embedding of the walk callback of `cleanupWCOWLayers` over the
directory names found directly under the snapshot root, in walk order:
a name carrying the `rm-` marker parses its numeric suffix into the
second (rm) group, any other name must itself parse as a layer number
into the first group; the first name `strconv.Atoi` rejects aborts the
walk with an error. -/
def collectLayerNums (names : List String) : Except String (List Int × List Int) :=
  match names with
  | [] => Except.ok ([], [])
  | name :: rest =>
    if startsWithRm name then
      match atoi (rmRest name) with
      | none => Except.error name
      | some n =>
        match collectLayerNums rest with
        | Except.error e => Except.error e
        | Except.ok (lns, rlns) => Except.ok (lns, n :: rlns)
    else
      match atoi name with
      | none => Except.error name
      | some n =>
        match collectLayerNums rest with
        | Except.error e => Except.error e
        | Except.ok (lns, rlns) => Except.ok (n :: lns, rlns)

/-- Descending numeric order, as Go
`sort.Sort(sort.Reverse(sort.IntSlice(...)))`. -/
def sortDescend (l : List Int) : List Int :=
  List.insertionSort (fun a b => b ≤ a) l

/-- Join of a directory entry onto its parent path (the platform
separator is abstracted to `/`; only the string's identity matters to
the ordering claims). -/
def joinLayerPath (root name : String) : String := root ++ "/" ++ name

/-- Embedding of `cleanupWCOWLayers`: walk the snapshot root collecting
the `rm-` group and the plain numbered group, then clean up the `rm-`
layers in descending numeric order followed by the plain layers in
descending numeric order.  The result is the ordered list of layer
paths passed to `cleanupWCOWLayer`. -/
def cleanupWCOWLayers (root : String) (names : List String) : Except String (List String) :=
  match collectLayerNums names with
  | Except.error e => Except.error e
  | Except.ok (layerNums, rmLayerNums) =>
    Except.ok
      ((sortDescend rmLayerNums).map (fun n => joinLayerPath root ("rm-" ++ toString n)) ++
       (sortDescend layerNums).map (fun n => joinLayerPath root (toString n)))

/-- Filesystem operations `ForceRemoveAll` performs, in order. -/
inductive FsOp where
  | cleanupLayer (path : String) : FsOp
  | removeAll (path : String) : FsOp
deriving DecidableEq, Repr

/-- The windows-snapshotter directory `ForceRemoveAll` inspects:
`path/io.containerd.snapshotter.v1.windows/snapshots`. -/
def snapshotsDir (path : String) : String :=
  joinLayerPath (joinLayerPath path "io.containerd.snapshotter.v1.windows") "snapshots"

/-- Embedding of `ForceRemoveAll`: when the snapshot directory exists
(abstracted by `snapDirExists`, with `names` its entries), the WCOW
layer cleanup runs first and a failure aborts without removing anything
else; only afterwards is the root path removed.  The result is the
ordered list of filesystem operations. -/
def ForceRemoveAll (path : String) (snapDirExists : Bool) (names : List String) :
    Except String (List FsOp) :=
  if snapDirExists then
    match cleanupWCOWLayers (snapshotsDir path) names with
    | Except.error e => Except.error e
    | Except.ok layers => Except.ok (layers.map FsOp.cleanupLayer ++ [FsOp.removeAll path])
  else Except.ok [FsOp.removeAll path]

instance : IsTrans Int (fun a b => b ≤ a) := ⟨fun _ _ _ h1 h2 => le_trans h2 h1⟩

instance : IsTotal Int (fun a b => b ≤ a) := ⟨fun a b => le_total b a⟩

theorem sortDescend_sorted (l : List Int) :
    List.Sorted (fun a b : Int => b ≤ a) (sortDescend l) :=
  List.sorted_insertionSort _ l

theorem sortDescend_strict (l : List Int) (h : l.Nodup) :
    List.Sorted (fun a b : Int => b < a) (sortDescend l) := by
  have hs : List.Sorted (fun a b : Int => b ≤ a) (sortDescend l) := sortDescend_sorted l
  have hnd : (sortDescend l).Nodup := (List.perm_insertionSort _ l).nodup_iff.mpr h
  exact (List.Pairwise.and hs hnd).imp (fun hab => lt_of_le_of_ne hab.1 (Ne.symm hab.2))

/-- C10: during teardown, `cleanupWCOWLayers` cleans up every layer
directory whose name carries the `rm-` marker before any plain numbered
layer directory, and within each of the two groups it processes layers
in descending numeric order of their layer number — strictly descending
whenever the collected numbers are distinct (directory entries are
distinct on a real filesystem); `ForceRemoveAll` performs this layer
cleanup first and removes the root path only afterwards, as the final
operation. -/
theorem wcow_layer_cleanup_order (root path : String) (names : List String)
    (layerNums rmLayerNums : List Int)
    (h : collectLayerNums names = Except.ok (layerNums, rmLayerNums)) :
    (cleanupWCOWLayers root names = Except.ok
      ((sortDescend rmLayerNums).map (fun n => joinLayerPath root ("rm-" ++ toString n)) ++
       (sortDescend layerNums).map (fun n => joinLayerPath root (toString n)))) ∧
    List.Sorted (fun a b : Int => b ≤ a) (sortDescend rmLayerNums) ∧
    List.Sorted (fun a b : Int => b ≤ a) (sortDescend layerNums) ∧
    (rmLayerNums.Nodup → List.Sorted (fun a b : Int => b < a) (sortDescend rmLayerNums)) ∧
    (layerNums.Nodup → List.Sorted (fun a b : Int => b < a) (sortDescend layerNums)) ∧
    (∀ ops, cleanupWCOWLayers (snapshotsDir path) names = Except.ok ops →
      ForceRemoveAll path true names =
        Except.ok (ops.map FsOp.cleanupLayer ++ [FsOp.removeAll path])) := by
  refine ⟨by simp [cleanupWCOWLayers, h], sortDescend_sorted _, sortDescend_sorted _,
    sortDescend_strict _, sortDescend_strict _, ?_⟩
  intro ops hops
  simp [ForceRemoveAll, hops]

theorem wcow_layer_cleanup_order_witness :
    cleanupWCOWLayers "r" ["3", "rm-1", "10", "rm-2"] =
      Except.ok ["r/rm-2", "r/rm-1", "r/10", "r/3"] ∧
    List.Sorted (fun a b : Int => b < a) (sortDescend [1, 2]) ∧
    ForceRemoveAll "p" true ["3"] =
      Except.ok [FsOp.cleanupLayer (joinLayerPath (snapshotsDir "p") "3"),
        FsOp.removeAll "p"] := by
  refine ⟨?_, ?_, ?_⟩
  · have h1 :=
      (wcow_layer_cleanup_order "r" "p" ["3", "rm-1", "10", "rm-2"] [3, 10] [1, 2] rfl).1
    rw [h1]
    rfl
  · exact (wcow_layer_cleanup_order "r" "p" ["3", "rm-1", "10", "rm-2"] [3, 10] [1, 2]
      rfl).2.2.2.1 (by decide)
  · exact (wcow_layer_cleanup_order "r" "p" ["3"] [3] [] rfl).2.2.2.2.2
      [joinLayerPath (snapshotsDir "p") "3"] rfl

end ContainerdSys
